import Mathlib

/-!
# Verification of the mortgage repayment simulator

Shallow embedding of `minimum_mortgage_repay_time_with_tracking` from
`mortgage_app.py`. Python floats are modelled by exact rationals (`ℚ`);
Python `datetime.date` is modelled by `PyDate` together with the
proleptic-Gregorian ordinal used by Python for date subtraction. A raised
`ValueError` (from constructing an invalid `date`) is modelled by `none` /
`.error`; the unbounded `while` loop is modelled with explicit fuel, and we
prove that 720 units of fuel are never exhausted.
-/

/-! ## Python `datetime.date` -/

/-- Gregorian leap year predicate, as in Python's `calendar.isleap`. -/
def isLeap (y : ℕ) : Bool :=
  (y % 4 == 0 && y % 100 != 0) || (y % 400 == 0)

/-- Number of days of month `m` (1..12) of year `y`. -/
def daysInMonth (y m : ℕ) : ℕ :=
  if m = 2 then (if isLeap y then 29 else 28)
  else if m = 4 ∨ m = 6 ∨ m = 9 ∨ m = 11 then 30
  else 31

/-- A Python `datetime.date` value: a year/month/day triple. Python only
ever holds valid triples; validity is re-checked at each construction site
via `mkDate`. -/
structure PyDate where
  year : ℕ
  month : ℕ
  day : ℕ
deriving DecidableEq, Repr

/-- The validity check performed by the `datetime.date` constructor
(`MINYEAR = 1`, `MAXYEAR = 9999`). -/
def validDate (y m d : ℕ) : Prop :=
  1 ≤ y ∧ y ≤ 9999 ∧ 1 ≤ m ∧ m ≤ 12 ∧ 1 ≤ d ∧ d ≤ daysInMonth y m

instance (y m d : ℕ) : Decidable (validDate y m d) :=
  inferInstanceAs (Decidable (_ ∧ _))

/-- `datetime.date(y, m, d)`: `some` on valid input, `none` models the
raised `ValueError`. -/
def mkDate (y m d : ℕ) : Option PyDate :=
  if validDate y m d then some ⟨y, m, d⟩ else none

/-- Days in year `y` strictly before month `m` (for `m` in 1..12), not
counting a leap day. -/
def monthOffset : ℕ → ℕ
  | 1 => 0
  | 2 => 31
  | 3 => 59
  | 4 => 90
  | 5 => 120
  | 6 => 151
  | 7 => 181
  | 8 => 212
  | 9 => 243
  | 10 => 273
  | 11 => 304
  | 12 => 334
  | _ => 365

/-- Days strictly before January 1 of year `y` in the proleptic Gregorian
calendar (Python's `date(y, 1, 1).toordinal() - 1`). -/
def daysBeforeYear (y : ℕ) : ℕ :=
  365 * (y - 1) + (y - 1) / 4 + (y - 1) / 400 - (y - 1) / 100

/-- Python's `date.toordinal()`: day number in the proleptic Gregorian
calendar, with `date(1, 1, 1).toordinal() = 1`. -/
def toOrdinal (d : PyDate) : ℕ :=
  daysBeforeYear d.year + monthOffset d.month +
    (if 3 ≤ d.month ∧ isLeap d.year then 1 else 0) + d.day

/-- Python date comparison `a < b` (lexicographic on year, month, day). -/
def dateLt (a b : PyDate) : Prop :=
  a.year < b.year ∨
    (a.year = b.year ∧
      (a.month < b.month ∨ (a.month = b.month ∧ a.day < b.day)))

instance (a b : PyDate) : Decidable (dateLt a b) :=
  inferInstanceAs (Decidable (_ ∨ _))

/-- `(cur - start).days` of Python's `timedelta`: difference of ordinals,
as an integer. -/
def elapsedDays (start cur : PyDate) : ℤ :=
  (toOrdinal cur : ℤ) - (toOrdinal start : ℤ)

/-- The date-increment at the bottom of the simulation loop:
`current_date.replace(year=year+1, month=1)` when `month == 12`, else
`current_date.replace(month=month+1)`. `replace` validates the new date,
so the result is optional. -/
def advanceMonth (d : PyDate) : Option PyDate :=
  if d.month = 12 then mkDate (d.year + 1) 1 d.day
  else mkDate d.year (d.month + 1) d.day

/-! ## Data model of the simulator -/

/-- One entry of the `history` list (the dict appended each step). -/
structure HistoryRecord where
  hdate : PyDate
  principal_remaining : ℚ
  savings : ℚ
  interest_paid : ℚ
  total_paid : ℚ
deriving DecidableEq, Repr

/-- The input parameters of `minimum_mortgage_repay_time_with_tracking`,
in source order. -/
structure Params where
  current_date : PyDate
  start_saving : ℚ
  mortgage_amount : ℚ
  monthly_payment : ℚ
  early_repay_percent : ℚ
  n_years_with_allowance : ℕ
  mortgage_interest_rate : ℚ
  monthly_revenue : ℚ
  savings_interest_rate : ℚ
  projection_years : ℚ
deriving DecidableEq, Repr

/-- The loop-carried state of the simulation. -/
structure SimState where
  current_date : PyDate
  principal : ℚ
  savings : ℚ
  month_count : ℕ
  total_interest_paid : ℚ
  yearly_principal_snapshot : ℚ
  early_repay_used : ℚ
  history : List HistoryRecord
deriving DecidableEq, Repr

/-- The dict literal appended to `history`: its `total_paid` field is
computed as `mortgage_amount - principal + total_interest_paid`. -/
def mkRecord (p : Params) (d : PyDate) (principal savings interest : ℚ) :
    HistoryRecord :=
  { hdate := d
    principal_remaining := principal
    savings := savings
    interest_paid := interest
    total_paid := p.mortgage_amount - principal + interest }

/-- State just before the loop: lines 57-75 of the source, including the
initial `t = 0` history snapshot. -/
def initState (p : Params) : SimState :=
  { current_date := p.current_date
    principal := p.mortgage_amount
    savings := p.start_saving
    month_count := 0
    total_interest_paid := 0
    yearly_principal_snapshot := p.mortgage_amount
    early_repay_used := 0
    history := [mkRecord p p.current_date p.mortgage_amount p.start_saving 0] }

/-! ## One iteration of the loop (lines 80-124) -/

/-- The float literal `1e-5` of the loop condition. -/
def eps : ℚ := 1 / 100000

/-- `interest_this_month = principal * monthly_mortgage_rate`. -/
def interestThisMonth (p : Params) (s : SimState) : ℚ :=
  s.principal * (p.mortgage_interest_rate / 12)

/-- `principal` after `principal += interest_this_month`. -/
def principalAfterInterest (p : Params) (s : SimState) : ℚ :=
  s.principal + interestThisMonth p s

/-- `savings` after `savings *= (1 + monthly_savings_rate)`. -/
def savingsAfterGrowth (p : Params) (s : SimState) : ℚ :=
  s.savings * (1 + p.savings_interest_rate / 12)

/-- `actual_payment = min(monthly_payment, principal)`. -/
def actualPayment (p : Params) (s : SimState) : ℚ :=
  min p.monthly_payment (principalAfterInterest p s)

/-- `principal` after `principal -= actual_payment`. -/
def principalAfterPayment (p : Params) (s : SimState) : ℚ :=
  principalAfterInterest p s - actualPayment p s

/-- `leftover = monthly_revenue - actual_payment`. -/
def leftover0 (p : Params) (s : SimState) : ℚ :=
  p.monthly_revenue - actualPayment p s

/-- The annual-reset guard `current_date.month == 1 and current_date.day == 1`,
checked on the pre-increment date. -/
def isJan1 (d : PyDate) : Prop :=
  d.month = 1 ∧ d.day = 1

instance (d : PyDate) : Decidable (isJan1 d) :=
  inferInstanceAs (Decidable (_ ∧ _))

/-- `yearly_principal_snapshot` after the annual reset check. -/
def snapshotAfterReset (p : Params) (s : SimState) : ℚ :=
  if isJan1 s.current_date then principalAfterPayment p s
  else s.yearly_principal_snapshot

/-- `early_repay_used` after the annual reset check. -/
def usedAfterReset (p : Params) (s : SimState) : ℚ :=
  if isJan1 s.current_date then 0 else s.early_repay_used

/-- `early_repay_limit`: the capped formula while
`current_date < start_no_limit_allowance_date`, the full remaining
principal afterwards. -/
def earlyRepayLimit (p : Params) (noLimit : PyDate) (s : SimState) : ℚ :=
  if dateLt s.current_date noLimit then
    snapshotAfterReset p s * p.early_repay_percent - usedAfterReset p s
  else principalAfterPayment p s

/-- `actual_early_repay = min(leftover + savings, early_repay_limit, principal)`. -/
def actualEarlyRepay (p : Params) (noLimit : PyDate) (s : SimState) : ℚ :=
  min (min (leftover0 p s + savingsAfterGrowth p s) (earlyRepayLimit p noLimit s))
    (principalAfterPayment p s)

/-- The state after one complete loop body, given the already-advanced
date `d2` (the history snapshot uses the advanced date). -/
def stepNext (p : Params) (noLimit : PyDate) (s : SimState) (d2 : PyDate) :
    SimState :=
  let aer := actualEarlyRepay p noLimit s
  let ti := s.total_interest_paid + interestThisMonth p s
  let pr := principalAfterPayment p s - aer
  let svL : ℚ × ℚ :=
    if aer > leftover0 p s then
      (max 0 (savingsAfterGrowth p s - (aer - leftover0 p s)), 0)
    else (savingsAfterGrowth p s, leftover0 p s - aer)
  { current_date := d2
    principal := pr
    savings := svL.1 + svL.2
    month_count := s.month_count + 1
    total_interest_paid := ti
    yearly_principal_snapshot := snapshotAfterReset p s
    early_repay_used := usedAfterReset p s + aer
    history := s.history ++ [mkRecord p d2 pr (svL.1 + svL.2) ti] }

/-- One iteration of the loop body; `none` models the `ValueError` raised
by the date increment when the new month has no such day. -/
def stepBody (p : Params) (noLimit : PyDate) (s : SimState) : Option SimState :=
  (advanceMonth s.current_date).map (stepNext p noLimit s)

/-- The loop guard
`principal > 1e-5 or (time_passed.days // 365) < projection_years`. -/
def loopCond (p : Params) (s : SimState) : Prop :=
  eps < s.principal ∨
    (((elapsedDays p.current_date s.current_date).fdiv 365 : ℚ) <
      p.projection_years)

instance (p : Params) (s : SimState) : Decidable (loopCond p s) :=
  inferInstanceAs (Decidable (_ ∨ _))

/-- Result of running the loop with a fixed amount of fuel. -/
inductive RunResult where
  | done : SimState → RunResult
  | error : RunResult
  | outOfFuel : RunResult
deriving DecidableEq, Repr

/-- The `while` loop, lines 79-127, with explicit fuel. After each
iteration the hard cutoff `time_passed.days > 365 * 60` breaks the loop. -/
def runLoop (p : Params) (noLimit : PyDate) : ℕ → SimState → RunResult
  | 0, _ => .outOfFuel
  | fuel + 1, s =>
    if loopCond p s then
      match stepBody p noLimit s with
      | none => .error
      | some s' =>
        if elapsedDays p.current_date s'.current_date > 365 * 60 then .done s'
        else runLoop p noLimit fuel s'
    else .done s

/-- The returned triple, or an error / fuel marker. -/
inductive SimResult where
  | ok : ℕ → List HistoryRecord → ℚ → SimResult
  | error : SimResult
  | outOfFuel : SimResult
deriving DecidableEq, Repr

/-- The whole function: build `start_no_limit_allowance_date` (which may
itself raise), run the loop, and return
`(month_count, history, total_interest_paid)`. -/
def minimum_mortgage_repay_time_with_tracking (p : Params) (fuel : ℕ) :
    SimResult :=
  match mkDate (p.current_date.year + p.n_years_with_allowance)
      p.current_date.month p.current_date.day with
  | none => .error
  | some noLimit =>
    match runLoop p noLimit fuel (initState p) with
    | .done s => .ok s.month_count s.history s.total_interest_paid
    | .error => .error
    | .outOfFuel => .outOfFuel

/-- Projection: the returned `month_count`. -/
def SimResult.months? : SimResult → Option ℕ
  | .ok m _ _ => some m
  | _ => none

/-- Projection: the returned `history`. -/
def SimResult.history? : SimResult → Option (List HistoryRecord)
  | .ok _ h _ => some h
  | _ => none

/-- Projection: the returned `total_interest_paid`. -/
def SimResult.interest? : SimResult → Option ℚ
  | .ok _ _ t => some t
  | _ => none

/-- The preconditions of spec §4: all amounts and rates non-negative,
`early_repay_cap_fraction ∈ [0, 1]`, `projection_years ≥ 0`, together with
the type-level guarantee that the start date is a real `datetime.date`. -/
def ValidParams (p : Params) : Prop :=
  validDate p.current_date.year p.current_date.month p.current_date.day ∧
  0 ≤ p.start_saving ∧ 0 ≤ p.mortgage_amount ∧ 0 ≤ p.monthly_payment ∧
  0 ≤ p.early_repay_percent ∧ p.early_repay_percent ≤ 1 ∧
  0 ≤ p.mortgage_interest_rate ∧ 0 ≤ p.monthly_revenue ∧
  0 ≤ p.savings_interest_rate ∧ 0 ≤ p.projection_years

instance (p : Params) : Decidable (ValidParams p) :=
  inferInstanceAs (Decidable (_ ∧ _))

/-- States the loop actually passes through: the initial state, and any
successor of a reached state whose loop guard held. -/
inductive ReachableF (p : Params) (noLimit : PyDate) : SimState → Prop
  | init : ReachableF p noLimit (initState p)
  | step {s s' : SimState} : ReachableF p noLimit s → loopCond p s →
      stepBody p noLimit s = some s' → ReachableF p noLimit s'

/- The Batteries library seals the rational operations against unfolding;
re-opening them lets concrete runs of the simulator be checked by
`decide` (the kernel itself never respects the seal, so proofs are
unaffected). -/
set_option allowUnsafeReducibility true in
attribute [semireducible] Rat.add Rat.sub Rat.mul Rat.inv Rat.ofScientific

/-- Checks that each entry of a list drops by exactly `d` from the
previous one. -/
def stepsBy (d : ℚ) : List ℚ → Bool
  | [] => true
  | [_] => true
  | a :: b :: t => (b == a - d) && stepsBy d (b :: t)

/-- The arithmetic sequence `[x - d, x - 2d, ..., x - kd]`: the expected
principal trace of a run that starts at `x` and repays `d` per month. -/
def descBy : ℚ → ℚ → ℕ → List ℚ
  | _, _, 0 => []
  | x, d, k + 1 => (x - d) :: descBy (x - d) d k

/-! ## Concrete inputs used by scenario claims and witnesses -/

/-- Spec §8 Scenario 1 (no early repayment, zero rates), parameterised by
its start date and initial savings, which the scenario leaves open. -/
def scenario1With (d : PyDate) (sv : ℚ) : Params :=
  { current_date := d, start_saving := sv, mortgage_amount := 120000,
    monthly_payment := 1000, early_repay_percent := 0,
    n_years_with_allowance := 100, mortgage_interest_rate := 0,
    monthly_revenue := 1000, savings_interest_rate := 0, projection_years := 0 }

/-- Spec §8 Scenario 2: unlimited early repayment from month one. -/
def scenario2Params : Params :=
  { current_date := ⟨2025, 8, 1⟩, start_saving := 0, mortgage_amount := 10000,
    monthly_payment := 500, early_repay_percent := 1,
    n_years_with_allowance := 0, mortgage_interest_rate := 0,
    monthly_revenue := 10500, savings_interest_rate := 0, projection_years := 0 }

/-- A degenerate run (zero mortgage, zero projection): the loop body never
executes, so the returned history is exactly the initial snapshot. -/
def tinyParams : Params :=
  { current_date := ⟨2025, 8, 1⟩, start_saving := 5, mortgage_amount := 0,
    monthly_payment := 0, early_repay_percent := 0, n_years_with_allowance := 0,
    mortgage_interest_rate := 0, monthly_revenue := 0,
    savings_interest_rate := 0, projection_years := 0 }

/-- The single history record produced by `tinyParams`. -/
def tinyRecord : HistoryRecord := ⟨⟨2025, 8, 1⟩, 0, 5, 0, 0⟩

/-- Pathological input for exercising the termination cutoff: no payment,
positive mortgage rate, long projection. -/
def divergentParams : Params :=
  { current_date := ⟨2025, 8, 1⟩, start_saving := 0, mortgage_amount := 100000,
    monthly_payment := 0, early_repay_percent := 0, n_years_with_allowance := 4,
    mortgage_interest_rate := 1, monthly_revenue := 0,
    savings_interest_rate := 0, projection_years := 50 }

/-- A start date on the 31st of January: the first date increment attempts
`date(2025, 2, 31)`. -/
def day31Params : Params :=
  { current_date := ⟨2025, 1, 31⟩, start_saving := 0, mortgage_amount := 1000,
    monthly_payment := 100, early_repay_percent := 0, n_years_with_allowance := 0,
    mortgage_interest_rate := 0, monthly_revenue := 0,
    savings_interest_rate := 0, projection_years := 0 }

/-- A January-1st start, for exercising the annual allowance reset. -/
def janParams : Params :=
  { current_date := ⟨2025, 1, 1⟩, start_saving := 0, mortgage_amount := 100,
    monthly_payment := 10, early_repay_percent := 0, n_years_with_allowance := 5,
    mortgage_interest_rate := 0, monthly_revenue := 10,
    savings_interest_rate := 0, projection_years := 0 }

/-- Revenue zero but a positive mandatory payment with empty savings: the
month's shortfall case. -/
def shortfallParams : Params :=
  { current_date := ⟨2025, 8, 1⟩, start_saving := 0, mortgage_amount := 1000,
    monthly_payment := 100, early_repay_percent := 0, n_years_with_allowance := 0,
    mortgage_interest_rate := 0, monthly_revenue := 0,
    savings_interest_rate := 0, projection_years := 0 }

/-! ## Date lemmas -/

theorem mkDate_some {y m d : ℕ} {e : PyDate} (h : mkDate y m d = some e) :
    e.year = y ∧ e.month = m ∧ e.day = d ∧ validDate y m d := by
  unfold mkDate at h
  split at h
  · cases h
    exact ⟨rfl, rfl, rfl, by assumption⟩
  · cases h

theorem mkDate_of_valid {y m d : ℕ} (h : validDate y m d) :
    mkDate y m d = some ⟨y, m, d⟩ := by
  unfold mkDate
  exact if_pos h

theorem daysInMonth_ge_28 (y m : ℕ) : 28 ≤ daysInMonth y m := by
  unfold daysInMonth
  split_ifs <;> omega

/-- Everything the date increment guarantees about its result: the day is
preserved, the new month is in range, and the month index
`12 * year + month` advances by exactly one; the new date is strictly
later. -/
theorem advanceMonth_some {d d' : PyDate} (h : advanceMonth d = some d') :
    d'.day = d.day ∧ 1 ≤ d'.month ∧ d'.month ≤ 12 ∧ 1 ≤ d'.year ∧
    d'.year ≤ 9999 ∧
    12 * d'.year + d'.month = 12 * d.year + d.month + 1 ∧ dateLt d d' := by
  unfold advanceMonth at h
  split at h
  · obtain ⟨hy, hm, hd, hv⟩ := mkDate_some h
    unfold validDate at hv
    unfold dateLt
    omega
  · obtain ⟨hy, hm, hd, hv⟩ := mkDate_some h
    unfold validDate at hv
    unfold dateLt
    omega

theorem dateLt_trans {a b c : PyDate} (h1 : dateLt a b) (h2 : dateLt b c) :
    dateLt a c := by
  unfold dateLt at *
  omega

/-- Sixty calendar years later (same month and day) is strictly more than
`365 * 60` days later: sixty consecutive years contain at least 14 leap
days, and the leap-day adjustment of the two endpoints differs by at most
one. -/
theorem toOrdinal_year_jump (y m d : ℕ) (hy : 1 ≤ y) :
    toOrdinal ⟨y, m, d⟩ + 21913 ≤ toOrdinal ⟨y + 60, m, d⟩ := by
  unfold toOrdinal daysBeforeYear
  split_ifs <;> simp only [] <;> omega

/-- Unpack a successful loop body: the date advanced and the new state is
`stepNext` of the old one. -/
theorem stepBody_some {p : Params} {noLimit : PyDate} {s s' : SimState}
    (h : stepBody p noLimit s = some s') :
    ∃ d2, advanceMonth s.current_date = some d2 ∧ s' = stepNext p noLimit s d2 := by
  unfold stepBody at h
  cases ha : advanceMonth s.current_date with
  | none => rw [ha] at h; cases h
  | some d2 =>
    rw [ha] at h
    cases h
    exact ⟨d2, rfl, rfl⟩

theorem stepNext_current_date (p : Params) (noLimit : PyDate) (s : SimState)
    (d2 : PyDate) : (stepNext p noLimit s d2).current_date = d2 := rfl

theorem stepNext_month_count (p : Params) (noLimit : PyDate) (s : SimState)
    (d2 : PyDate) : (stepNext p noLimit s d2).month_count = s.month_count + 1 :=
  rfl

/-! ## The 60-year cutoff bounds the loop at 720 iterations -/

/-- A state 720 months after the start whose elapsed time still fits under
the hard cutoff is impossible: 720 months with the same day of month are
sixty full calendar years, which exceed `365 * 60` days. -/
theorem month_index_720_contra (p : Params) (s : SimState)
    (h1 : 1 ≤ s.current_date.month) (h2 : s.current_date.month ≤ 12)
    (h3 : s.current_date.day = p.current_date.day)
    (h4 : 1 ≤ p.current_date.year) (h5 : 1 ≤ p.current_date.month)
    (h6 : p.current_date.month ≤ 12)
    (h7 : 12 * s.current_date.year + s.current_date.month =
      12 * p.current_date.year + p.current_date.month + 720)
    (h8 : elapsedDays p.current_date s.current_date ≤ 365 * 60) : False := by
  have hys : s.current_date.year = p.current_date.year + 60 ∧
      s.current_date.month = p.current_date.month := by omega
  have hord : toOrdinal s.current_date =
      toOrdinal ⟨p.current_date.year + 60, p.current_date.month,
        p.current_date.day⟩ := by
    unfold toOrdinal
    rw [hys.1, hys.2, h3]
  have hjump := toOrdinal_year_jump p.current_date.year p.current_date.month
    p.current_date.day h4
  have hpd : toOrdinal ⟨p.current_date.year, p.current_date.month,
      p.current_date.day⟩ = toOrdinal p.current_date := rfl
  rw [hpd] at hjump
  unfold elapsedDays at h8
  omega

/-- Core induction: with the month index tied to the remaining fuel, the
loop cannot exhaust `720` units of fuel, because reaching fuel `0` would
mean 720 elapsed months, i.e. sixty full years, contradicting the carried
bound `elapsed ≤ 365 * 60` enforced by the hard cutoff. -/
theorem runLoop_ne_outOfFuel (p : Params) (noLimit : PyDate) :
    ∀ fuel s, 1 ≤ s.current_date.month → s.current_date.month ≤ 12 →
    s.current_date.day = p.current_date.day →
    1 ≤ p.current_date.year → 1 ≤ p.current_date.month →
    p.current_date.month ≤ 12 →
    12 * s.current_date.year + s.current_date.month + fuel =
      12 * p.current_date.year + p.current_date.month + 720 →
    elapsedDays p.current_date s.current_date ≤ 365 * 60 →
    runLoop p noLimit fuel s ≠ RunResult.outOfFuel := by
  intro fuel
  induction fuel with
  | zero =>
    intro s h1 h2 h3 h4 h5 h6 h7 h8 _
    exact month_index_720_contra p s h1 h2 h3 h4 h5 h6 (by omega) h8
  | succ n ih =>
    intro s h1 h2 h3 h4 h5 h6 h7 h8
    rw [runLoop]
    split_ifs with hc
    · cases hsb : stepBody p noLimit s with
      | none => simp
      | some s' =>
        simp only []
        split_ifs with hbreak
        · simp
        · obtain ⟨d2, hadv, hnext⟩ := stepBody_some hsb
          obtain ⟨hd, hm1, hm2, hy1, hy2, hmi, hlt⟩ := advanceMonth_some hadv
          have hcd : s'.current_date = d2 := by rw [hnext]; rfl
          apply ih s'
          · rw [hcd]; exact hm1
          · rw [hcd]; exact hm2
          · rw [hcd, hd, h3]
          · exact h4
          · exact h5
          · exact h6
          · rw [hcd]; omega
          · omega
    · simp

/-- With a start day of month at most 28 and enough year headroom, every
date increment the loop can reach succeeds, so the loop (run with 720
units of fuel) always returns normally. -/
theorem runLoop_done_of_day_le_28 (p : Params) (noLimit : PyDate) :
    ∀ fuel s, fuel ≤ 720 →
    1 ≤ s.current_date.month → s.current_date.month ≤ 12 →
    s.current_date.day = p.current_date.day →
    1 ≤ s.current_date.year →
    1 ≤ p.current_date.year → 1 ≤ p.current_date.month →
    p.current_date.month ≤ 12 →
    1 ≤ p.current_date.day → p.current_date.day ≤ 28 →
    p.current_date.year + 60 ≤ 9999 →
    12 * s.current_date.year + s.current_date.month + fuel =
      12 * p.current_date.year + p.current_date.month + 720 →
    elapsedDays p.current_date s.current_date ≤ 365 * 60 →
    ∃ t, runLoop p noLimit fuel s = RunResult.done t := by
  intro fuel
  induction fuel with
  | zero =>
    intro s hf h1 h2 h3 hys h4 h5 h6 hd1 hd28 h9999 h7 h8
    exact (month_index_720_contra p s h1 h2 h3 h4 h5 h6 (by omega) h8).elim
  | succ n ih =>
    intro s hf h1 h2 h3 hys h4 h5 h6 hd1 hd28 h9999 h7 h8
    rw [runLoop]
    split_ifs with hc
    · have hadv : ∃ d2, advanceMonth s.current_date = some d2 := by
        unfold advanceMonth
        by_cases hm12 : s.current_date.month = 12
        · rw [if_pos hm12]
          refine ⟨_, mkDate_of_valid ?_⟩
          unfold validDate
          have h28 := daysInMonth_ge_28 (s.current_date.year + 1) 1
          omega
        · rw [if_neg hm12]
          refine ⟨_, mkDate_of_valid ?_⟩
          unfold validDate
          have h28 := daysInMonth_ge_28 s.current_date.year
            (s.current_date.month + 1)
          omega
      obtain ⟨d2, hadv⟩ := hadv
      have hsb : stepBody p noLimit s = some (stepNext p noLimit s d2) := by
        unfold stepBody
        rw [hadv]
        rfl
      simp only [hsb]
      split_ifs with hbreak
      · exact ⟨_, rfl⟩
      · obtain ⟨hd, hm1, hm2, hy1, hy2, hmi, hlt⟩ := advanceMonth_some hadv
        apply ih (stepNext p noLimit s d2) (by omega)
        · rw [stepNext_current_date]; exact hm1
        · rw [stepNext_current_date]; exact hm2
        · rw [stepNext_current_date, hd, h3]
        · rw [stepNext_current_date]; exact hy1
        · exact h4
        · exact h5
        · exact h6
        · exact hd1
        · exact hd28
        · exact h9999
        · rw [stepNext_current_date]; omega
        · rw [stepNext_current_date] at hbreak ⊢
          omega
    · exact ⟨s, rfl⟩

/-- Each iteration increments `month_count` by one, so a normal return
after `fuel` units of fuel adds at most `fuel` to the initial count. -/
theorem runLoop_month_count (p : Params) (noLimit : PyDate) :
    ∀ fuel s t, runLoop p noLimit fuel s = RunResult.done t →
    t.month_count ≤ s.month_count + fuel := by
  intro fuel
  induction fuel with
  | zero =>
    intro s t h
    rw [runLoop] at h
    cases h
  | succ n ih =>
    intro s t h
    rw [runLoop] at h
    split_ifs at h with hc
    · cases hsb : stepBody p noLimit s with
      | none => simp [hsb] at h
      | some s' =>
        simp only [hsb] at h
        obtain ⟨d2, hadv, hnext⟩ := stepBody_some hsb
        have hmc : s'.month_count = s.month_count + 1 := by
          rw [hnext, stepNext_month_count]
        split_ifs at h with hbreak
        · cases h
          omega
        · have := ih s' t h
          omega
    · cases h
      omega

/-- A normal return from a reached state ends in a reached state. -/
theorem runLoop_done_reachable (p : Params) (noLimit : PyDate) :
    ∀ fuel s t, ReachableF p noLimit s →
    runLoop p noLimit fuel s = RunResult.done t → ReachableF p noLimit t := by
  intro fuel
  induction fuel with
  | zero =>
    intro s t hr h
    rw [runLoop] at h
    cases h
  | succ n ih =>
    intro s t hr h
    rw [runLoop] at h
    split_ifs at h with hc
    · cases hsb : stepBody p noLimit s with
      | none => simp [hsb] at h
      | some s' =>
        simp only [hsb] at h
        have hr' : ReachableF p noLimit s' := ReachableF.step hr hc hsb
        split_ifs at h with hbreak
        · cases h
          exact hr'
        · exact ih s' t hr' h
    · cases h
      exact hr

/-! ## Arithmetic facts about one step -/

theorem interestThisMonth_nonneg {p : Params} {s : SimState}
    (hr : 0 ≤ p.mortgage_interest_rate) (hp : 0 ≤ s.principal) :
    0 ≤ interestThisMonth p s :=
  mul_nonneg hp (div_nonneg hr (by norm_num))

theorem actualPayment_nonneg {p : Params} {s : SimState}
    (hmp : 0 ≤ p.monthly_payment) (hr : 0 ≤ p.mortgage_interest_rate)
    (hp : 0 ≤ s.principal) : 0 ≤ actualPayment p s :=
  le_min hmp (add_nonneg hp (interestThisMonth_nonneg hr hp))

theorem actualPayment_le {p : Params} {s : SimState} :
    actualPayment p s ≤ principalAfterInterest p s :=
  min_le_right _ _

theorem principalAfterPayment_nonneg {p : Params} {s : SimState}
    (hr : 0 ≤ p.mortgage_interest_rate) (hp : 0 ≤ s.principal) :
    0 ≤ principalAfterPayment p s := by
  have h1 : actualPayment p s ≤ principalAfterInterest p s := actualPayment_le
  unfold principalAfterPayment
  linarith

theorem savingsAfterGrowth_nonneg {p : Params} {s : SimState}
    (hsr : 0 ≤ p.savings_interest_rate) (hs : 0 ≤ s.savings) :
    0 ≤ savingsAfterGrowth p s :=
  mul_nonneg hs
    (by linarith [div_nonneg hsr (show (0:ℚ) ≤ 12 by norm_num)])

theorem snapshotAfterReset_nonneg {p : Params} {s : SimState}
    (hr : 0 ≤ p.mortgage_interest_rate) (hp : 0 ≤ s.principal)
    (hsn : 0 ≤ s.yearly_principal_snapshot) : 0 ≤ snapshotAfterReset p s := by
  unfold snapshotAfterReset
  split_ifs
  · exact principalAfterPayment_nonneg hr hp
  · exact hsn

/-- After the (possible) annual reset, the used amount still fits under
the snapshot-based cap, as long as the pre-increment date is inside the
allowance window. -/
theorem usedAfterReset_le_cap {p : Params} {noLimit : PyDate} {s : SimState}
    (hep0 : 0 ≤ p.early_repay_percent) (hr : 0 ≤ p.mortgage_interest_rate)
    (hp : 0 ≤ s.principal) (hsn : 0 ≤ s.yearly_principal_snapshot)
    (hcap : dateLt s.current_date noLimit →
      s.early_repay_used ≤ s.yearly_principal_snapshot * p.early_repay_percent)
    (hlt : dateLt s.current_date noLimit) :
    usedAfterReset p s ≤ snapshotAfterReset p s * p.early_repay_percent := by
  unfold usedAfterReset snapshotAfterReset
  split_ifs
  · exact mul_nonneg (principalAfterPayment_nonneg hr hp) hep0
  · exact hcap hlt

theorem earlyRepayLimit_nonneg {p : Params} {noLimit : PyDate} {s : SimState}
    (hep0 : 0 ≤ p.early_repay_percent) (hr : 0 ≤ p.mortgage_interest_rate)
    (hp : 0 ≤ s.principal) (hsn : 0 ≤ s.yearly_principal_snapshot)
    (hcap : dateLt s.current_date noLimit →
      s.early_repay_used ≤ s.yearly_principal_snapshot * p.early_repay_percent) :
    0 ≤ earlyRepayLimit p noLimit s := by
  unfold earlyRepayLimit
  split_ifs with h
  · linarith [usedAfterReset_le_cap hep0 hr hp hsn hcap h]
  · exact principalAfterPayment_nonneg hr hp

theorem actualEarlyRepay_le_principal {p : Params} {noLimit : PyDate}
    {s : SimState} :
    actualEarlyRepay p noLimit s ≤ principalAfterPayment p s :=
  min_le_right _ _

theorem actualEarlyRepay_le_limit {p : Params} {noLimit : PyDate}
    {s : SimState} :
    actualEarlyRepay p noLimit s ≤ earlyRepayLimit p noLimit s :=
  le_trans (min_le_left _ _) (min_le_right _ _)

theorem actualEarlyRepay_le_funds {p : Params} {noLimit : PyDate}
    {s : SimState} :
    actualEarlyRepay p noLimit s ≤ leftover0 p s + savingsAfterGrowth p s :=
  le_trans (min_le_left _ _) (min_le_left _ _)

/-- The early repayment can be negative (when revenue plus savings cannot
cover the mandatory payment), but never by more than the mandatory payment
itself. -/
theorem neg_payment_le_actualEarlyRepay {p : Params} {noLimit : PyDate}
    {s : SimState}
    (hmp : 0 ≤ p.monthly_payment) (hrev : 0 ≤ p.monthly_revenue)
    (hep0 : 0 ≤ p.early_repay_percent) (hr : 0 ≤ p.mortgage_interest_rate)
    (hp : 0 ≤ s.principal) (hs : 0 ≤ s.savings)
    (hsr : 0 ≤ p.savings_interest_rate)
    (hsn : 0 ≤ s.yearly_principal_snapshot)
    (hcap : dateLt s.current_date noLimit →
      s.early_repay_used ≤ s.yearly_principal_snapshot * p.early_repay_percent) :
    -actualPayment p s ≤ actualEarlyRepay p noLimit s := by
  have hpay : 0 ≤ actualPayment p s := actualPayment_nonneg hmp hr hp
  have hsv : 0 ≤ savingsAfterGrowth p s := savingsAfterGrowth_nonneg hsr hs
  have hlim : 0 ≤ earlyRepayLimit p noLimit s :=
    earlyRepayLimit_nonneg hep0 hr hp hsn hcap
  have hpap : 0 ≤ principalAfterPayment p s :=
    principalAfterPayment_nonneg hr hp
  unfold actualEarlyRepay
  refine le_min (le_min ?_ ?_) ?_
  · unfold leftover0
    linarith
  · linarith
  · linarith

/-! ## Field computations for the post-step state -/

theorem stepNext_principal (p : Params) (noLimit : PyDate) (s : SimState)
    (d2 : PyDate) : (stepNext p noLimit s d2).principal =
      principalAfterPayment p s - actualEarlyRepay p noLimit s := rfl

theorem stepNext_total_interest (p : Params) (noLimit : PyDate) (s : SimState)
    (d2 : PyDate) : (stepNext p noLimit s d2).total_interest_paid =
      s.total_interest_paid + interestThisMonth p s := rfl

theorem stepNext_snapshot (p : Params) (noLimit : PyDate) (s : SimState)
    (d2 : PyDate) : (stepNext p noLimit s d2).yearly_principal_snapshot =
      snapshotAfterReset p s := rfl

theorem stepNext_used (p : Params) (noLimit : PyDate) (s : SimState)
    (d2 : PyDate) : (stepNext p noLimit s d2).early_repay_used =
      usedAfterReset p s + actualEarlyRepay p noLimit s := rfl

theorem stepNext_history (p : Params) (noLimit : PyDate) (s : SimState)
    (d2 : PyDate) : (stepNext p noLimit s d2).history =
      s.history ++ [mkRecord p d2 (stepNext p noLimit s d2).principal
        (stepNext p noLimit s d2).savings
        (stepNext p noLimit s d2).total_interest_paid] := rfl

/-- The two branches of the savings update, merged into one formula. -/
theorem stepNext_savings (p : Params) (noLimit : PyDate) (s : SimState)
    (d2 : PyDate) : (stepNext p noLimit s d2).savings =
      if actualEarlyRepay p noLimit s > leftover0 p s then
        max 0 (savingsAfterGrowth p s -
          (actualEarlyRepay p noLimit s - leftover0 p s))
      else savingsAfterGrowth p s + (leftover0 p s - actualEarlyRepay p noLimit s) := by
  simp only [stepNext]
  split_ifs with h
  · ring
  · rfl

/-! ## The loop invariant -/

/-- Everything the claims need about one loop state: non-negative
balances, the capped-phase bound on the yearly early-repay budget, the
last history record mirroring the state, and the three per-record history
properties (conservation of `total_paid`, non-negativity, monotonicity). -/
def LoopInv (p : Params) (noLimit : PyDate) (s : SimState) : Prop :=
  0 ≤ s.principal ∧ 0 ≤ s.savings ∧ 0 ≤ s.yearly_principal_snapshot ∧
  (dateLt s.current_date noLimit →
    s.early_repay_used ≤ s.yearly_principal_snapshot * p.early_repay_percent) ∧
  (∃ r, s.history.getLast? = some r ∧ r.principal_remaining = s.principal ∧
    r.savings = s.savings ∧ r.interest_paid = s.total_interest_paid ∧
    r.total_paid = p.mortgage_amount - s.principal + s.total_interest_paid) ∧
  (∀ r ∈ s.history,
    r.total_paid = p.mortgage_amount - r.principal_remaining + r.interest_paid) ∧
  (∀ r ∈ s.history, 0 ≤ r.principal_remaining ∧ 0 ≤ r.savings) ∧
  List.Chain' (fun a b => a.interest_paid ≤ b.interest_paid ∧
    a.total_paid ≤ b.total_paid) s.history

theorem Inv_init (p : Params) (noLimit : PyDate) (hv : ValidParams p) :
    LoopInv p noLimit (initState p) := by
  obtain ⟨hvd, hss, hma, hmp, hep0, hep1, hmr, hrev, hsr, hpy⟩ := hv
  refine ⟨hma, hss, hma, fun _ => mul_nonneg hma hep0,
    ⟨mkRecord p p.current_date p.mortgage_amount p.start_saving 0,
      rfl, rfl, rfl, rfl, rfl⟩, ?_, ?_, ?_⟩
  · intro r hr
    simp only [initState, List.mem_singleton] at hr
    subst hr
    rfl
  · intro r hr
    simp only [initState, List.mem_singleton] at hr
    subst hr
    exact ⟨hma, hss⟩
  · exact List.chain'_singleton _

/-- One loop body preserves the invariant, given the §4 preconditions. -/
theorem Inv_step {p : Params} {noLimit : PyDate} {s s' : SimState}
    (hv : ValidParams p) (hinv : LoopInv p noLimit s)
    (hstep : stepBody p noLimit s = some s') : LoopInv p noLimit s' := by
  obtain ⟨hvd, hss, hma, hmp, hep0, hep1, hmr, hrev, hsr, hpy⟩ := hv
  obtain ⟨hp, hs, hsn, hcap, ⟨rl, hrl, hrlp, hrls, hrli, hrlt⟩, htp, hnn, hch⟩ :=
    hinv
  obtain ⟨d2, hadv, rfl⟩ := stepBody_some hstep
  have him : 0 ≤ interestThisMonth p s := interestThisMonth_nonneg hmr hp
  have hpay0 : 0 ≤ actualPayment p s := actualPayment_nonneg hmp hmr hp
  have hpap : 0 ≤ principalAfterPayment p s := principalAfterPayment_nonneg hmr hp
  have hsv : 0 ≤ savingsAfterGrowth p s := savingsAfterGrowth_nonneg hsr hs
  have haerP : actualEarlyRepay p noLimit s ≤ principalAfterPayment p s :=
    actualEarlyRepay_le_principal
  have haerN : -actualPayment p s ≤ actualEarlyRepay p noLimit s :=
    neg_payment_le_actualEarlyRepay hmp hrev hep0 hmr hp hs hsr hsn hcap
  have hprin' : 0 ≤ (stepNext p noLimit s d2).principal := by
    rw [stepNext_principal]
    linarith
  have hsv' : 0 ≤ (stepNext p noLimit s d2).savings := by
    rw [stepNext_savings]
    split_ifs with h
    · exact le_max_left _ _
    · push_neg at h
      linarith
  have hpape : principalAfterPayment p s =
      s.principal + interestThisMonth p s - actualPayment p s := rfl
  refine ⟨hprin', hsv', ?_, ?_, ?_, ?_, ?_, ?_⟩
  · rw [stepNext_snapshot]
    exact snapshotAfterReset_nonneg hmr hp hsn
  · intro hlt2
    rw [stepNext_current_date] at hlt2
    have hlt1 : dateLt s.current_date noLimit :=
      dateLt_trans (advanceMonth_some hadv).2.2.2.2.2.2 hlt2
    have hlim := @actualEarlyRepay_le_limit p noLimit s
    unfold earlyRepayLimit at hlim
    rw [if_pos hlt1] at hlim
    rw [stepNext_used, stepNext_snapshot]
    linarith
  · refine ⟨mkRecord p d2 (stepNext p noLimit s d2).principal
      (stepNext p noLimit s d2).savings
      (stepNext p noLimit s d2).total_interest_paid, ?_, rfl, rfl, rfl, ?_⟩
    · rw [stepNext_history]
      exact List.getLast?_concat _
    · rw [stepNext_total_interest]
      rfl
  · intro r hr
    rw [stepNext_history] at hr
    rcases List.mem_append.mp hr with h | h
    · exact htp r h
    · rw [List.mem_singleton] at h
      subst h
      rfl
  · intro r hr
    rw [stepNext_history] at hr
    rcases List.mem_append.mp hr with h | h
    · exact hnn r h
    · rw [List.mem_singleton] at h
      subst h
      exact ⟨hprin', hsv'⟩
  · rw [stepNext_history]
    refine List.Chain'.append hch (List.chain'_singleton _) ?_
    intro x hx y hy
    simp only [hrl, Option.mem_def, Option.some.injEq] at hx
    simp only [List.head?_cons, Option.mem_def, Option.some.injEq] at hy
    subst hx
    subst hy
    constructor
    · rw [hrli]
      show s.total_interest_paid ≤ (stepNext p noLimit s d2).total_interest_paid
      rw [stepNext_total_interest]
      linarith
    · rw [hrlt]
      show p.mortgage_amount - s.principal + s.total_interest_paid ≤
        p.mortgage_amount - (stepNext p noLimit s d2).principal +
          (stepNext p noLimit s d2).total_interest_paid
      rw [stepNext_principal, stepNext_total_interest, hpape]
      linarith


/-- Every state the loop reaches satisfies the invariant. -/
theorem reachable_Inv {p : Params} {noLimit : PyDate} {s : SimState}
    (hr : ReachableF p noLimit s) (hv : ValidParams p) : LoopInv p noLimit s := by
  induction hr with
  | init => exact Inv_init p noLimit hv
  | step hr hc hsb ih => exact Inv_step hv ih hsb

/-! ## The claims -/

set_option maxRecDepth 8000000
set_option maxHeartbeats 4000000

/-- C1: for every input satisfying the §4 preconditions, the simulation
loop performs at most 720 monthly steps before returning: run with 720
units of fuel it never runs out, and the returned `month_count` is at most
720, because the hard 60-year cutoff breaks the loop unconditionally. -/
theorem claim_C1_termination_bound (p : Params) (hv : ValidParams p) :
    minimum_mortgage_repay_time_with_tracking p 720 ≠ SimResult.outOfFuel ∧
    ∀ m hist ti, minimum_mortgage_repay_time_with_tracking p 720 =
      SimResult.ok m hist ti → m ≤ 720 := by
  obtain ⟨hvd, -⟩ := hv
  obtain ⟨hy1, hy2, hm1, hm2, hd1, hd2⟩ := hvd
  unfold minimum_mortgage_repay_time_with_tracking
  cases hmk : mkDate (p.current_date.year + p.n_years_with_allowance)
      p.current_date.month p.current_date.day with
  | none => exact ⟨by simp, by simp⟩
  | some nl =>
    have hrun720 : runLoop p nl 720 (initState p) ≠ RunResult.outOfFuel := by
      apply runLoop_ne_outOfFuel p nl 720 (initState p)
      · exact hm1
      · exact hm2
      · rfl
      · exact hy1
      · exact hm1
      · exact hm2
      · rfl
      · show elapsedDays p.current_date p.current_date ≤ 365 * 60
        unfold elapsedDays
        omega
    cases hrun : runLoop p nl 720 (initState p) with
    | done t =>
      refine ⟨by simp [hrun], ?_⟩
      intro m hist ti h
      have hmc := runLoop_month_count p nl 720 (initState p) t hrun
      simp only [hrun, SimResult.ok.injEq] at h
      obtain ⟨rfl, -, -⟩ := h
      have h0 : (initState p).month_count = 0 := rfl
      omega
    | error => exact ⟨by simp [hrun], fun m hist ti h => by simp [hrun] at h⟩
    | outOfFuel => exact absurd hrun hrun720

/-- C1 witness: the termination bound applied to a pathological input
whose payment never covers the accruing interest. -/
theorem claim_C1_witness :
    ValidParams divergentParams ∧
    minimum_mortgage_repay_time_with_tracking divergentParams 720 ≠
      SimResult.outOfFuel :=
  ⟨by decide, (claim_C1_termination_bound divergentParams (by decide)).1⟩

/-- Auxiliary for C2: the per-record `total_paid` identity holds for every
record of the final history whenever it holds for the starting history,
for any parameters whatsoever (it is true by construction of the appended
record). -/
theorem runLoop_total_paid (p : Params) (noLimit : PyDate) :
    ∀ fuel s t,
    (∀ r ∈ s.history,
      r.total_paid = p.mortgage_amount - r.principal_remaining + r.interest_paid) →
    runLoop p noLimit fuel s = RunResult.done t →
    ∀ r ∈ t.history,
      r.total_paid = p.mortgage_amount - r.principal_remaining + r.interest_paid := by
  intro fuel
  induction fuel with
  | zero =>
    intro s t hh h
    rw [runLoop] at h
    cases h
  | succ n ih =>
    intro s t hh h
    rw [runLoop] at h
    split_ifs at h with hc
    · cases hsb : stepBody p noLimit s with
      | none => simp [hsb] at h
      | some s' =>
        simp only [hsb] at h
        have hh' : ∀ r ∈ s'.history, r.total_paid =
            p.mortgage_amount - r.principal_remaining + r.interest_paid := by
          obtain ⟨d2, hadv, rfl⟩ := stepBody_some hsb
          intro r hr
          rw [stepNext_history] at hr
          rcases List.mem_append.mp hr with hA | hA
          · exact hh r hA
          · rw [List.mem_singleton] at hA
            subst hA
            rfl
        split_ifs at h with hbreak
        · cases h
          exact hh'
        · exact ih s' t hh' h
    · cases h
      exact hh

/-- C2: for every input (no preconditions) and every record of the
returned history, including the initial snapshot,
`total_paid = mortgage_amount - principal_remaining + interest_paid`
holds exactly. -/
theorem claim_C2_conservation (p : Params) (fuel m : ℕ)
    (hist : List HistoryRecord) (ti : ℚ)
    (h : minimum_mortgage_repay_time_with_tracking p fuel =
      SimResult.ok m hist ti) :
    ∀ r ∈ hist,
      r.total_paid = p.mortgage_amount - r.principal_remaining + r.interest_paid := by
  unfold minimum_mortgage_repay_time_with_tracking at h
  cases hmk : mkDate (p.current_date.year + p.n_years_with_allowance)
      p.current_date.month p.current_date.day with
  | none => simp [hmk] at h
  | some nl =>
    simp only [hmk] at h
    cases hrun : runLoop p nl fuel (initState p) with
    | done t =>
      simp only [hrun, SimResult.ok.injEq] at h
      obtain ⟨-, rfl, -⟩ := h
      apply runLoop_total_paid p nl fuel (initState p) t _ hrun
      intro r hr
      simp only [initState, List.mem_singleton] at hr
      subst hr
      rfl
    | error => simp [hrun] at h
    | outOfFuel => simp [hrun] at h

/-- C2 witness: the conservation identity read off a concrete degenerate
run. -/
theorem claim_C2_witness :
    tinyRecord.total_paid = tinyParams.mortgage_amount -
      tinyRecord.principal_remaining + tinyRecord.interest_paid :=
  claim_C2_conservation tinyParams 1 0 [tinyRecord] 0 (by decide) tinyRecord
    (by decide)

/-- C3: under the §4 preconditions, every record of the returned history
has non-negative `principal_remaining` and non-negative `savings`. -/
theorem claim_C3_nonnegative (p : Params) (fuel m : ℕ)
    (hist : List HistoryRecord) (ti : ℚ) (hv : ValidParams p)
    (h : minimum_mortgage_repay_time_with_tracking p fuel =
      SimResult.ok m hist ti) :
    ∀ r ∈ hist, 0 ≤ r.principal_remaining ∧ 0 ≤ r.savings := by
  unfold minimum_mortgage_repay_time_with_tracking at h
  cases hmk : mkDate (p.current_date.year + p.n_years_with_allowance)
      p.current_date.month p.current_date.day with
  | none => simp [hmk] at h
  | some nl =>
    simp only [hmk] at h
    cases hrun : runLoop p nl fuel (initState p) with
    | done t =>
      simp only [hrun, SimResult.ok.injEq] at h
      obtain ⟨-, rfl, -⟩ := h
      have hreach : ReachableF p nl t :=
        runLoop_done_reachable p nl fuel (initState p) t ReachableF.init hrun
      exact (reachable_Inv hreach hv).2.2.2.2.2.2.1
    | error => simp [hrun] at h
    | outOfFuel => simp [hrun] at h

/-- C3 witness: non-negativity read off a concrete degenerate run. -/
theorem claim_C3_witness :
    0 ≤ tinyRecord.principal_remaining ∧ 0 ≤ tinyRecord.savings :=
  claim_C3_nonnegative tinyParams 1 0 [tinyRecord] 0 (by decide) (by decide)
    tinyRecord (by decide)

/-- C4: under the §4 preconditions, at every state the loop reaches whose
pre-increment date is still inside the allowance window, the running
`early_repay_used` total is at most
`yearly_principal_snapshot * early_repay_percent`, and the month's
`actual_early_repay` is at most the remaining yearly budget
(cap minus used, both taken after the annual reset check). -/
theorem claim_C4_cap_respected (p : Params) (noLimit : PyDate) (s : SimState)
    (hv : ValidParams p) (hreach : ReachableF p noLimit s)
    (hlt : dateLt s.current_date noLimit) :
    s.early_repay_used ≤ s.yearly_principal_snapshot * p.early_repay_percent ∧
    actualEarlyRepay p noLimit s ≤
      snapshotAfterReset p s * p.early_repay_percent - usedAfterReset p s := by
  have hinv := reachable_Inv hreach hv
  refine ⟨hinv.2.2.2.1 hlt, ?_⟩
  have h := @actualEarlyRepay_le_limit p noLimit s
  unfold earlyRepayLimit at h
  rw [if_pos hlt] at h
  exact h

/-- C4 witness: the cap bound at the initial state of a run still inside
its allowance window. -/
theorem claim_C4_witness :
    (initState janParams).early_repay_used ≤
      (initState janParams).yearly_principal_snapshot *
        janParams.early_repay_percent :=
  (claim_C4_cap_respected janParams ⟨2030, 1, 1⟩ (initState janParams)
    (by decide) ReachableF.init (by decide)).1

/-- C5: under the §4 preconditions, both `interest_paid` and `total_paid`
are monotonically non-decreasing from each record of the returned history
to the next. -/
theorem claim_C5_monotonicity (p : Params) (fuel m : ℕ)
    (hist : List HistoryRecord) (ti : ℚ) (hv : ValidParams p)
    (h : minimum_mortgage_repay_time_with_tracking p fuel =
      SimResult.ok m hist ti) :
    List.Chain' (fun a b => a.interest_paid ≤ b.interest_paid ∧
      a.total_paid ≤ b.total_paid) hist := by
  unfold minimum_mortgage_repay_time_with_tracking at h
  cases hmk : mkDate (p.current_date.year + p.n_years_with_allowance)
      p.current_date.month p.current_date.day with
  | none => simp [hmk] at h
  | some nl =>
    simp only [hmk] at h
    cases hrun : runLoop p nl fuel (initState p) with
    | done t =>
      simp only [hrun, SimResult.ok.injEq] at h
      obtain ⟨-, rfl, -⟩ := h
      have hreach : ReachableF p nl t :=
        runLoop_done_reachable p nl fuel (initState p) t ReachableF.init hrun
      exact (reachable_Inv hreach hv).2.2.2.2.2.2.2
    | error => simp [hrun] at h
    | outOfFuel => simp [hrun] at h

/-- C5 witness: monotonicity read off a concrete degenerate run. -/
theorem claim_C5_witness :
    List.Chain' (fun a b => a.interest_paid ≤ b.interest_paid ∧
      a.total_paid ≤ b.total_paid) [tinyRecord] :=
  claim_C5_monotonicity tinyParams 1 0 [tinyRecord] 0 (by decide) (by decide)

/-- C6: in every iteration, the annual allowance reset (snapshotting the
post-payment principal and zeroing the used total) fires exactly when the
pre-increment date is January 1st; it happens before the cap is computed,
so the January cap is based on the snapshot just taken in that same step;
and the post-step state carries exactly the post-reset values. -/
theorem claim_C6_annual_reset (p : Params) (noLimit : PyDate) (s s' : SimState) :
    (isJan1 s.current_date →
      snapshotAfterReset p s = principalAfterPayment p s ∧
      usedAfterReset p s = 0) ∧
    (¬isJan1 s.current_date →
      snapshotAfterReset p s = s.yearly_principal_snapshot ∧
      usedAfterReset p s = s.early_repay_used) ∧
    (isJan1 s.current_date → dateLt s.current_date noLimit →
      earlyRepayLimit p noLimit s =
        principalAfterPayment p s * p.early_repay_percent) ∧
    (stepBody p noLimit s = some s' →
      s'.yearly_principal_snapshot = snapshotAfterReset p s ∧
      s'.early_repay_used = usedAfterReset p s + actualEarlyRepay p noLimit s) := by
  refine ⟨fun h => ?_, fun h => ?_, fun h hlt => ?_, fun hstep => ?_⟩
  · unfold snapshotAfterReset usedAfterReset
    rw [if_pos h, if_pos h]
    exact ⟨rfl, rfl⟩
  · unfold snapshotAfterReset usedAfterReset
    rw [if_neg h, if_neg h]
    exact ⟨rfl, rfl⟩
  · unfold earlyRepayLimit
    rw [if_pos hlt]
    unfold snapshotAfterReset usedAfterReset
    rw [if_pos h, if_pos h]
    ring
  · obtain ⟨d2, hadv, rfl⟩ := stepBody_some hstep
    exact ⟨stepNext_snapshot p noLimit s d2, stepNext_used p noLimit s d2⟩

/-- C6 witness: the reset firing on a concrete January 1st start. -/
theorem claim_C6_witness :
    isJan1 (initState janParams).current_date ∧
    snapshotAfterReset janParams (initState janParams) =
      principalAfterPayment janParams (initState janParams) ∧
    usedAfterReset janParams (initState janParams) = 0 :=
  ⟨by decide,
    ((claim_C6_annual_reset janParams ⟨2030, 1, 1⟩ (initState janParams)
      (initState janParams)).1 (by decide)).1,
    ((claim_C6_annual_reset janParams ⟨2030, 1, 1⟩ (initState janParams)
      (initState janParams)).1 (by decide)).2⟩

/-- C7: once the pre-increment date is no longer before the allowance
threshold, the early-repay limit equals the full remaining principal; and
in spec §8 Scenario 2 (unlimited from month one, zero mortgage rate) the
principal reaches 0 after exactly one simulated month, funded from that
month's leftover (savings end at 500, not drawn below their deposits). -/
theorem claim_C7_unlimited_phase :
    (∀ (p : Params) (noLimit : PyDate) (s : SimState),
      ¬dateLt s.current_date noLimit →
      earlyRepayLimit p noLimit s = principalAfterPayment p s) ∧
    (minimum_mortgage_repay_time_with_tracking scenario2Params 720).months? =
      some 1 ∧
    ((minimum_mortgage_repay_time_with_tracking scenario2Params 720).history?).map
      (fun h => h.map (fun r => r.principal_remaining)) = some [10000, 0] ∧
    ((minimum_mortgage_repay_time_with_tracking scenario2Params 720).history?).map
      (fun h => h.map (fun r => r.savings)) = some [0, 500] := by
  refine ⟨fun p noLimit s h => ?_, by decide, by decide, by decide⟩
  unfold earlyRepayLimit
  rw [if_neg h]

/-- C7 witness: the unlimited-phase limit at the initial state of
Scenario 2 (whose allowance window is empty). -/
theorem claim_C7_witness :
    ¬dateLt (⟨2025, 8, 1⟩ : PyDate) ⟨2025, 8, 1⟩ ∧
    earlyRepayLimit scenario2Params ⟨2025, 8, 1⟩ (initState scenario2Params) =
      principalAfterPayment scenario2Params (initState scenario2Params) :=
  ⟨by decide, claim_C7_unlimited_phase.1 scenario2Params ⟨2025, 8, 1⟩
    (initState scenario2Params) (by decide)⟩

/-- One calendar month forward moves Python's ordinal by the length of
the month being left: between 28 and 31 days. -/
theorem advanceMonth_toOrdinal_bounds {d d' : PyDate} (hm1 : 1 ≤ d.month)
    (hm2 : d.month ≤ 12) (hy : 1 ≤ d.year) (h : advanceMonth d = some d') :
    toOrdinal d + 28 ≤ toOrdinal d' ∧ toOrdinal d' ≤ toOrdinal d + 31 := by
  obtain ⟨y, m, dd⟩ := d
  dsimp only at hm1 hm2 hy ⊢
  unfold advanceMonth at h
  dsimp only at h
  by_cases h12 : m = 12
  · rw [if_pos h12] at h
    obtain ⟨hy', hm', hd', hv⟩ := mkDate_some h
    subst h12
    unfold toOrdinal
    rw [hy', hm', hd']
    dsimp only
    simp only [monthOffset]
    have h31 : ¬ ((3:ℕ) ≤ 1 ∧ isLeap (y + 1) = true) := by
      rintro ⟨h3, -⟩
      omega
    rw [if_neg h31]
    cases hL : isLeap y with
    | false =>
      rw [if_neg (show ¬ ((3:ℕ) ≤ 12 ∧ false = true) from by simp)]
      have hnl : ¬ (isLeap y = true) := by rw [hL]; simp
      simp only [isLeap, Bool.or_eq_true, Bool.and_eq_true, beq_iff_eq,
        bne_iff_ne, ne_eq] at hnl
      unfold daysBeforeYear
      omega
    | true =>
      rw [if_pos (show (3:ℕ) ≤ 12 ∧ true = true from ⟨by omega, rfl⟩)]
      have hLt : isLeap y = true := hL
      simp only [isLeap, Bool.or_eq_true, Bool.and_eq_true, beq_iff_eq,
        bne_iff_ne, ne_eq] at hLt
      unfold daysBeforeYear
      omega
  · rw [if_neg h12] at h
    obtain ⟨hy', hm', hd', hv⟩ := mkDate_some h
    unfold toOrdinal
    rw [hy', hm', hd']
    dsimp only
    have hm11 : m ≤ 11 := by omega
    interval_cases m <;> cases hL : isLeap y <;>
      simp [monthOffset, hL] <;> omega

/-- A strictly smaller month index `12 * year + month` means a strictly
earlier date, whatever the day components. -/
theorem dateLt_of_month_index_lt {a b : PyDate} (ha1 : 1 ≤ a.month)
    (ha2 : a.month ≤ 12) (hb1 : 1 ≤ b.month) (hb2 : b.month ≤ 12)
    (h : 12 * a.year + a.month < 12 * b.year + b.month) : dateLt a b := by
  unfold dateLt
  omega

/-- A value followed by its arithmetic descent passes the fixed-decrement
check. -/
theorem stepsBy_descBy (dq x : ℚ) : ∀ k, stepsBy dq (x :: descBy x dq k) = true := by
  intro k
  induction k generalizing x with
  | zero => rfl
  | succ n ih =>
    show stepsBy dq (x :: (x - dq) :: descBy (x - dq) dq n) = true
    rw [stepsBy, ih]
    simp

/-- Scenario 1, run symbolically from any state of the shape the run
maintains: with `k` thousand-units of principal left, the loop performs
exactly `k` further iterations, accrues no interest, leaves the savings
untouched, and appends records whose principal drops by 1000 a month. -/
theorem scenario1_run (d : PyDate) (sv : ℚ) (hsv : 0 ≤ sv)
    (hdm1 : 1 ≤ d.month) (hdm2 : d.month ≤ 12) (hy100 : d.year + 100 ≤ 9999) :
    ∀ (k fuel : ℕ) (s : SimState), k ≤ 120 → k < fuel →
    s.principal = 1000 * (k : ℚ) →
    s.savings = sv →
    s.early_repay_used = 0 →
    s.current_date.day = 1 →
    1 ≤ s.current_date.month → s.current_date.month ≤ 12 →
    1 ≤ s.current_date.year →
    12 * s.current_date.year + s.current_date.month =
      12 * d.year + d.month + (120 - k) →
    toOrdinal d ≤ toOrdinal s.current_date →
    toOrdinal s.current_date ≤ toOrdinal d + 31 * (120 - k) →
    ∃ t, runLoop (scenario1With d sv) ⟨d.year + 100, d.month, 1⟩ fuel s =
        RunResult.done t ∧
      t.month_count = s.month_count + k ∧
      t.total_interest_paid = s.total_interest_paid ∧
      t.history.map (fun r => r.principal_remaining) =
        s.history.map (fun r => r.principal_remaining) ++
          descBy (1000 * (k : ℚ)) 1000 k ∧
      t.history.length = s.history.length + k := by
  intro k
  induction k with
  | zero =>
    intro fuel s hk hfuel hprin hsav hused hday hm1 hm2 hy1 hmi hol hou
    obtain ⟨f, rfl⟩ : ∃ f, fuel = f + 1 := ⟨fuel - 1, by omega⟩
    have hnc : ¬ loopCond (scenario1With d sv) s := by
      unfold loopCond
      push_neg
      constructor
      · rw [hprin]
        norm_num [eps]
      · have h0 : (0:ℤ) ≤ (elapsedDays (scenario1With d sv).current_date
            s.current_date).fdiv 365 := by
          apply Int.fdiv_nonneg _ (by norm_num)
          show (0:ℤ) ≤ elapsedDays d s.current_date
          unfold elapsedDays
          omega
        have hpj : (scenario1With d sv).projection_years = 0 := rfl
        rw [hpj]
        exact_mod_cast h0
    refine ⟨s, by rw [runLoop, if_neg hnc], by omega, rfl, ?_, by omega⟩
    simp [descBy]
  | succ k ih =>
    intro fuel s hk hfuel hprin hsav hused hday hm1 hm2 hy1 hmi hol hou
    obtain ⟨f, rfl⟩ : ∃ f, fuel = f + 1 := ⟨fuel - 1, by omega⟩
    have hk0 : (0:ℚ) ≤ (k:ℚ) := Nat.cast_nonneg k
    have hprin' : s.principal = 1000 * (k:ℚ) + 1000 := by
      rw [hprin]
      push_cast
      ring
    have hc : loopCond (scenario1With d sv) s := by
      left
      rw [hprin']
      unfold eps
      linarith
    have hadv : ∃ d2, advanceMonth s.current_date = some d2 := by
      unfold advanceMonth
      by_cases h12 : s.current_date.month = 12
      · rw [if_pos h12]
        refine ⟨_, mkDate_of_valid ?_⟩
        unfold validDate
        have h28 := daysInMonth_ge_28 (s.current_date.year + 1) 1
        omega
      · rw [if_neg h12]
        refine ⟨_, mkDate_of_valid ?_⟩
        unfold validDate
        have h28 := daysInMonth_ge_28 s.current_date.year
          (s.current_date.month + 1)
        omega
    obtain ⟨d2, hadv⟩ := hadv
    obtain ⟨hd2d, hd2m1, hd2m2, hd2y1, hd2y2, hd2mi, hd2lt⟩ :=
      advanceMonth_some hadv
    have hbnd := advanceMonth_toOrdinal_bounds hm1 hm2 hy1 hadv
    have hsb : stepBody (scenario1With d sv) ⟨d.year + 100, d.month, 1⟩ s =
        some (stepNext (scenario1With d sv) ⟨d.year + 100, d.month, 1⟩ s d2) := by
      unfold stepBody
      rw [hadv]
      rfl
    have hint : interestThisMonth (scenario1With d sv) s = 0 := by
      unfold interestThisMonth
      show s.principal * ((0:ℚ) / 12) = 0
      norm_num
    have hpai : principalAfterInterest (scenario1With d sv) s =
        1000 * (k:ℚ) + 1000 := by
      unfold principalAfterInterest
      rw [hint, hprin', add_zero]
    have hpay : actualPayment (scenario1With d sv) s = 1000 := by
      unfold actualPayment
      rw [hpai]
      show min (1000:ℚ) _ = 1000
      apply min_eq_left
      linarith
    have hpap : principalAfterPayment (scenario1With d sv) s = 1000 * (k:ℚ) := by
      unfold principalAfterPayment
      rw [hpai, hpay]
      ring
    have hlo : leftover0 (scenario1With d sv) s = 0 := by
      unfold leftover0
      rw [hpay]
      show (1000:ℚ) - 1000 = 0
      norm_num
    have hsg : savingsAfterGrowth (scenario1With d sv) s = sv := by
      unfold savingsAfterGrowth
      rw [hsav]
      show sv * (1 + (0:ℚ) / 12) = sv
      norm_num
    have huar : usedAfterReset (scenario1With d sv) s = 0 := by
      unfold usedAfterReset
      split_ifs
      · rfl
      · exact hused
    have hcapped : dateLt s.current_date ⟨d.year + 100, d.month, 1⟩ := by
      apply dateLt_of_month_index_lt hm1 hm2
      · show 1 ≤ d.month
        exact hdm1
      · show d.month ≤ 12
        exact hdm2
      · show 12 * s.current_date.year + s.current_date.month <
          12 * (d.year + 100) + d.month
        omega
    have hlim : earlyRepayLimit (scenario1With d sv)
        ⟨d.year + 100, d.month, 1⟩ s = 0 := by
      unfold earlyRepayLimit
      rw [if_pos hcapped, huar]
      show snapshotAfterReset (scenario1With d sv) s * (0:ℚ) - 0 = 0
      ring
    have haer : actualEarlyRepay (scenario1With d sv)
        ⟨d.year + 100, d.month, 1⟩ s = 0 := by
      unfold actualEarlyRepay
      rw [hlim, hlo, hsg, hpap, zero_add, min_eq_right hsv]
      apply min_eq_left
      positivity
    have hpr2 : (stepNext (scenario1With d sv) ⟨d.year + 100, d.month, 1⟩
        s d2).principal = 1000 * (k:ℚ) := by
      rw [stepNext_principal, hpap, haer, sub_zero]
    have hsv2 : (stepNext (scenario1With d sv) ⟨d.year + 100, d.month, 1⟩
        s d2).savings = sv := by
      rw [stepNext_savings, haer, hlo, hsg]
      norm_num
    have hti2 : (stepNext (scenario1With d sv) ⟨d.year + 100, d.month, 1⟩
        s d2).total_interest_paid = s.total_interest_paid := by
      rw [stepNext_total_interest, hint, add_zero]
    have hus2 : (stepNext (scenario1With d sv) ⟨d.year + 100, d.month, 1⟩
        s d2).early_repay_used = 0 := by
      rw [stepNext_used, huar, haer, add_zero]
    have hcd2 : (stepNext (scenario1With d sv) ⟨d.year + 100, d.month, 1⟩
        s d2).current_date = d2 := stepNext_current_date _ _ _ _
    have hmap2 : (stepNext (scenario1With d sv) ⟨d.year + 100, d.month, 1⟩
        s d2).history.map (fun r => r.principal_remaining) =
        s.history.map (fun r => r.principal_remaining) ++ [1000 * (k:ℚ)] := by
      rw [stepNext_history, List.map_append]
      simp only [List.map_cons, List.map_nil, mkRecord]
      rw [hpr2]
    have hlen2 : (stepNext (scenario1With d sv) ⟨d.year + 100, d.month, 1⟩
        s d2).history.length = s.history.length + 1 := by
      rw [stepNext_history]
      simp
    have hnb : ¬ (elapsedDays (scenario1With d sv).current_date
        (stepNext (scenario1With d sv) ⟨d.year + 100, d.month, 1⟩
          s d2).current_date > 365 * 60) := by
      rw [hcd2]
      show ¬ (elapsedDays d d2 > 365 * 60)
      unfold elapsedDays
      omega
    obtain ⟨t, hrt, hmc, hti, hmap, hlen⟩ := ih f
      (stepNext (scenario1With d sv) ⟨d.year + 100, d.month, 1⟩ s d2)
      (by omega) (by omega) hpr2 hsv2 hus2
      (by rw [hcd2, hd2d, hday])
      (by rw [hcd2]; exact hd2m1)
      (by rw [hcd2]; exact hd2m2)
      (by rw [hcd2]; exact hd2y1)
      (by rw [hcd2]; omega)
      (by rw [hcd2]; omega)
      (by rw [hcd2]; omega)
    refine ⟨t, ?_, ?_, ?_, ?_, ?_⟩
    · rw [runLoop, if_pos hc]
      simp only [hsb]
      rw [if_neg hnb]
      exact hrt
    · rw [hmc, stepNext_month_count]
      omega
    · rw [hti, hti2]
    · have hstep : descBy (1000 * ((k + 1 : ℕ) : ℚ)) 1000 (k + 1) =
          (1000 * (k:ℚ)) :: descBy (1000 * (k:ℚ)) 1000 k := by
        have he : (1000:ℚ) * ((k + 1 : ℕ) : ℚ) - 1000 = 1000 * (k:ℚ) := by
          push_cast
          ring
        rw [descBy, he]
      rw [hmap, hmap2, hstep]
      simp [List.append_assoc]
    · rw [hlen, hlen2]
      omega

/-- Extract the returned triple from a successful threshold-date
construction and loop run (stated with symbolic fuel, so the rewrite never
forces the loop to unfold). -/
theorem minimum_ok_of_parts (p : Params) (nl : PyDate) (fuel : ℕ) (t : SimState)
    (hmk : mkDate (p.current_date.year + p.n_years_with_allowance)
      p.current_date.month p.current_date.day = some nl)
    (hrt : runLoop p nl fuel (initState p) = RunResult.done t) :
    minimum_mortgage_repay_time_with_tracking p fuel =
      SimResult.ok t.month_count t.history t.total_interest_paid := by
  unfold minimum_mortgage_repay_time_with_tracking
  simp only [hmk, hrt]

/-- C8: spec §8 Scenario 1 (no early repayment, zero rates, payment equal
to revenue, principal 120000), started on the 1st of any month — any
valid calendar date with day 1 whose year leaves room for the 100-year
allowance threshold — with any non-negative initial savings: the run
returns 120 months, total interest 0, and a history of 121 records whose
`principal_remaining` drops by exactly 1000 every step. -/
theorem claim_C8_scenario1 (d : PyDate) (sv : ℚ) (hsv : 0 ≤ sv)
    (hday : d.day = 1) (hvd : validDate d.year d.month d.day)
    (hy100 : d.year + 100 ≤ 9999) :
    ∃ hist, minimum_mortgage_repay_time_with_tracking (scenario1With d sv) 720 =
        SimResult.ok 120 hist 0 ∧
      hist.length = 121 ∧
      stepsBy 1000 (hist.map (fun r => r.principal_remaining)) = true := by
  obtain ⟨hy1, hy2, hm1, hm2, hd1, hd2⟩ := hvd
  have hmk : mkDate ((scenario1With d sv).current_date.year +
      (scenario1With d sv).n_years_with_allowance)
      (scenario1With d sv).current_date.month
      (scenario1With d sv).current_date.day =
      some ⟨d.year + 100, d.month, 1⟩ := by
    show mkDate (d.year + 100) d.month d.day = _
    rw [hday]
    apply mkDate_of_valid
    unfold validDate
    have h28 := daysInMonth_ge_28 (d.year + 100) d.month
    omega
  obtain ⟨t, hrt, hmc, hti, hmap, hlen⟩ := scenario1_run d sv hsv hm1 hm2 hy100
    120 720 (initState (scenario1With d sv)) (by omega) (by omega)
    (by show (120000:ℚ) = 1000 * ((120:ℕ):ℚ); norm_num)
    rfl rfl
    (by show d.day = 1; exact hday)
    (by show 1 ≤ d.month; exact hm1)
    (by show d.month ≤ 12; exact hm2)
    (by show 1 ≤ d.year; exact hy1)
    (by show 12 * d.year + d.month = 12 * d.year + d.month + (120 - 120); omega)
    (by show toOrdinal d ≤ toOrdinal d; omega)
    (by show toOrdinal d ≤ toOrdinal d + 31 * (120 - 120); omega)
  rw [minimum_ok_of_parts (scenario1With d sv) ⟨d.year + 100, d.month, 1⟩ 720 t
    hmk hrt]
  have h1 : t.month_count = 120 := by
    rw [hmc]
    rfl
  have h2 : t.total_interest_paid = 0 := by
    rw [hti]
    rfl
  refine ⟨t.history, ?_, ?_, ?_⟩
  · rw [h1, h2]
  · rw [hlen]
    rfl
  · rw [hmap]
    have hini : (initState (scenario1With d sv)).history.map
        (fun r => r.principal_remaining) = [(120000:ℚ)] := rfl
    have h120 : (1000:ℚ) * ((120:ℕ):ℚ) = 120000 := by norm_num
    rw [hini, h120, List.singleton_append]
    exact stepsBy_descBy 1000 120000 120

/-- C8 witness: Scenario 1 at the app's default start date 2025-08-01
with no initial savings. -/
theorem claim_C8_witness :
    ∃ hist, minimum_mortgage_repay_time_with_tracking
        (scenario1With ⟨2025, 8, 1⟩ 0) 720 = SimResult.ok 120 hist 0 ∧
      hist.length = 121 ∧
      stepsBy 1000 (hist.map (fun r => r.principal_remaining)) = true :=
  claim_C8_scenario1 ⟨2025, 8, 1⟩ 0 (by norm_num) rfl (by decide) (by norm_num)

/-- C9 counterexample: with a perfectly valid parameter set whose start
date is January 31st, the first monthly date increment attempts
`date(2025, 2, 31)` and raises, so the function does not run to
completion. -/
theorem claim_C9_counterexample :
    ValidParams day31Params ∧
    minimum_mortgage_repay_time_with_tracking day31Params 720 =
      SimResult.error :=
  ⟨by decide, by decide⟩

/-- C9 amended: the algorithm runs to completion without raising provided
the start day of month is at most 28 (so every month has it) and the two
constructed years stay within Python's year 9999 bound. -/
theorem claim_C9_amended (p : Params) (hv : ValidParams p)
    (hday : p.current_date.day ≤ 28)
    (hyn : p.current_date.year + p.n_years_with_allowance ≤ 9999)
    (hy60 : p.current_date.year + 60 ≤ 9999) :
    ∃ m hist ti, minimum_mortgage_repay_time_with_tracking p 720 =
      SimResult.ok m hist ti := by
  obtain ⟨hvd, -⟩ := hv
  obtain ⟨hy1, hy2, hm1, hm2, hd1, hd2⟩ := hvd
  unfold minimum_mortgage_repay_time_with_tracking
  have h28 := daysInMonth_ge_28 (p.current_date.year + p.n_years_with_allowance)
    p.current_date.month
  have hmk : mkDate (p.current_date.year + p.n_years_with_allowance)
      p.current_date.month p.current_date.day =
      some ⟨p.current_date.year + p.n_years_with_allowance,
        p.current_date.month, p.current_date.day⟩ := by
    apply mkDate_of_valid
    unfold validDate
    omega
  obtain ⟨t, ht⟩ := runLoop_done_of_day_le_28 p
    ⟨p.current_date.year + p.n_years_with_allowance, p.current_date.month,
      p.current_date.day⟩ 720 (initState p) (le_refl 720) hm1 hm2 rfl hy1 hy1
    hm1 hm2 hd1 hday hy60 rfl
    (by show elapsedDays p.current_date p.current_date ≤ 365 * 60
        unfold elapsedDays
        omega)
  simp only [hmk, ht]
  exact ⟨t.month_count, t.history, t.total_interest_paid, rfl⟩

/-- C9 witness: a day-1 start runs to completion. -/
theorem claim_C9_witness :
    ∃ m hist ti, minimum_mortgage_repay_time_with_tracking tinyParams 720 =
      SimResult.ok m hist ti :=
  claim_C9_amended tinyParams (by decide) (by decide) (by decide) (by decide)

/-- C10: in a month where `leftover + savings` is negative at the
early-repayment step, the early repayment equals that negative sum, the
step ends with savings exactly 0, the principal grows by the uncovered
shortfall on top of that month's interest (already inside
`principalAfterPayment`), and the running `early_repay_used` total drops
by the same amount. -/
theorem claim_C10_shortfall_capitalized (p : Params) (noLimit : PyDate)
    (s s' : SimState) (hv : ValidParams p) (hreach : ReachableF p noLimit s)
    (hneg : leftover0 p s + savingsAfterGrowth p s < 0)
    (hstep : stepBody p noLimit s = some s') :
    actualEarlyRepay p noLimit s = leftover0 p s + savingsAfterGrowth p s ∧
    s'.savings = 0 ∧
    s'.principal = principalAfterPayment p s +
      -(leftover0 p s + savingsAfterGrowth p s) ∧
    s'.early_repay_used = usedAfterReset p s -
      -(leftover0 p s + savingsAfterGrowth p s) := by
  have hinv := reachable_Inv hreach hv
  obtain ⟨hvd, hss, hma, hmp, hep0, hep1, hmr, hrev, hsr, hpy⟩ := hv
  obtain ⟨hp, hs, hsn, hcap, -, -, -, -⟩ := hinv
  have hpap : 0 ≤ principalAfterPayment p s :=
    principalAfterPayment_nonneg hmr hp
  have hsv : 0 ≤ savingsAfterGrowth p s := savingsAfterGrowth_nonneg hsr hs
  have hlim : 0 ≤ earlyRepayLimit p noLimit s :=
    earlyRepayLimit_nonneg hep0 hmr hp hsn hcap
  have h1 : leftover0 p s + savingsAfterGrowth p s ≤
      earlyRepayLimit p noLimit s := by linarith
  have h2 : leftover0 p s + savingsAfterGrowth p s ≤
      principalAfterPayment p s := by linarith
  have haer : actualEarlyRepay p noLimit s =
      leftover0 p s + savingsAfterGrowth p s := by
    unfold actualEarlyRepay
    rw [min_eq_left h1, min_eq_left h2]
  obtain ⟨d2, hadv, rfl⟩ := stepBody_some hstep
  refine ⟨haer, ?_, ?_, ?_⟩
  · rw [stepNext_savings, haer]
    split_ifs with hgt
    · have he : savingsAfterGrowth p s -
          (leftover0 p s + savingsAfterGrowth p s - leftover0 p s) = 0 := by
        ring
      rw [he]
      exact max_self 0
    · ring
  · rw [stepNext_principal, haer]
    ring
  · rw [stepNext_used, haer]
    ring

/-- C10 witness: the shortfall month at a concrete input with zero
revenue, a positive mandatory payment, and empty savings. -/
theorem claim_C10_witness :
    leftover0 shortfallParams (initState shortfallParams) +
      savingsAfterGrowth shortfallParams (initState shortfallParams) < 0 ∧
    (stepNext shortfallParams ⟨2025, 8, 1⟩ (initState shortfallParams)
      ⟨2025, 9, 1⟩).savings = 0 :=
  ⟨by decide,
    (claim_C10_shortfall_capitalized shortfallParams ⟨2025, 8, 1⟩
      (initState shortfallParams)
      (stepNext shortfallParams ⟨2025, 8, 1⟩ (initState shortfallParams)
        ⟨2025, 9, 1⟩)
      (by decide) ReachableF.init (by decide) (by decide)).2.1⟩
